import Mathlib

/-!
Verification of the Expensive_Icelandic token-analysis pipeline.

Shallow embedding of the analysis code:
  * `TokenCounter` embeds `src/data/token_counter.py` (pricing constants,
    `calculate_cost`, `count_tokens`, `analyze_token_differences`, `process_csv`).
  * `Icetoke` embeds the pure helpers of `src/icetoke.py` (`count_tokens`,
    `calculate_cost`, and the percentage-difference expression of `main`).
  * `SpecModel` holds a definition modelled from the specification text where
    the corresponding code does not exist in the source tree.

Conventions: pandas numeric NaN is modelled as `none : Option _`; Python floats
are modelled exactly as rationals (ℚ), except standard deviation, which needs a
real square root; a pandas cell that may be NaN is `Option String`; the tiktoken
encoding is an opaque parameter `String → List ℕ` of which only the length of
the result is used.
-/

namespace TokenCounter

/-- Pricing tier: dollars per one million tokens (token_counter.py lines 11-20). -/
structure Pricing where
  input : ℚ
  output : ℚ
deriving DecidableEq, Repr

/-- GPT-4 pricing dict from token_counter.py: standard tier. -/
def PRICING_standard : Pricing := { input := 2.50, output := 10.00 }

/-- GPT-4 pricing dict from token_counter.py: batch tier. -/
def PRICING_batch : Pricing := { input := 1.25, output := 5.00 }

/-- `calculate_cost(tokens, price_per_million)` from token_counter.py lines 22-24:
`(tokens * price_per_million) / 1_000_000`. -/
def calculate_cost (tokens price_per_million : ℚ) : ℚ :=
  (tokens * price_per_million) / 1000000

/-- `count_tokens(text, encoding)` from token_counter.py lines 26-30:
returns 0 when `pd.isna(text)` (modelled by `none`), otherwise the length of
`encoding.encode(text)`.  Note: an empty string is NOT NaN, so it is encoded. -/
def count_tokens (text : Option String) (encoding : String → List ℕ) : ℕ :=
  match text with
  | none => 0
  | some t => (encoding t).length

/-- Control-flow instrumented version of `count_tokens`: same result in the
first component; the second component records whether `encoding.encode` was
invoked on the cell, mirroring the branches of token_counter.py lines 26-30. -/
def count_tokens_instr (text : Option String) (encoding : String → List ℕ) :
    ℕ × Bool :=
  match text with
  | none => (0, false)
  | some t => ((encoding t).length, true)

/-- A row of the dataframe after token counting (columns `english`,
`icelandic`, `english_tokens`, `icelandic_tokens`). -/
structure Row where
  english : Option String
  icelandic : Option String
  english_tokens : ℤ
  icelandic_tokens : ℤ
deriving DecidableEq, Repr

/-- A row after `analyze_token_differences` has added the `token_difference`
column (token_counter.py line 35). -/
structure DecoratedRow where
  english : Option String
  icelandic : Option String
  english_tokens : ℤ
  icelandic_tokens : ℤ
  token_difference : ℤ
deriving DecidableEq, Repr

/-- Line 35: `df['token_difference'] = df['icelandic_tokens'] - df['english_tokens']`. -/
def decorateRow (r : Row) : DecoratedRow :=
  { english := r.english
    icelandic := r.icelandic
    english_tokens := r.english_tokens
    icelandic_tokens := r.icelandic_tokens
    token_difference := r.icelandic_tokens - r.english_tokens }

/-- pandas `Series.mean` over an integer column: NaN (`none`) on an empty
series, otherwise the rational mean. -/
def seriesMean (xs : List ℤ) : Option ℚ :=
  if xs.length = 0 then none
  else some ((xs.map (Int.cast : ℤ → ℚ)).sum / (xs.length : ℚ))

/-- pandas `Series.median` over an integer column: NaN on empty, the middle of
the sorted values for odd length, the average of the two middles for even. -/
def seriesMedian (xs : List ℤ) : Option ℚ :=
  let s := xs.mergeSort (fun a b => a ≤ b)
  let n := xs.length
  if n = 0 then none
  else if n % 2 = 1 then some ((s.getD (n / 2) 0 : ℤ) : ℚ)
  else some ((((s.getD (n / 2 - 1) 0) : ℚ) + ((s.getD (n / 2) 0) : ℚ)) / 2)

/-- pandas `Series.var` with the default `ddof=1`: NaN (`none`) unless the
series has at least two entries, otherwise the sum of squared deviations from
the mean divided by `n - 1`. -/
def seriesVar (xs : List ℤ) : Option ℚ :=
  if 2 ≤ xs.length then
    some (((xs.map (fun x : ℤ => ((x : ℚ) -
        (xs.map (Int.cast : ℤ → ℚ)).sum / (xs.length : ℚ)) ^ 2)).sum) /
      ((xs.length : ℚ) - 1))
  else none

/-- pandas `Series.std` with the default `ddof=1` (token_counter.py line 41):
the square root of the sample variance, NaN for fewer than two entries. -/
noncomputable def seriesStd (xs : List ℤ) : Option ℝ :=
  (seriesVar xs).map (fun v => Real.sqrt (v : ℝ))

/-- pandas `Series.idxmax`: scan of the values keeping the first position of
the strictly largest value seen so far (`bi`, `bv` are the best index and
value, `i` the position of the head of the remaining list). -/
def idxmaxGo (xs : List ℤ) (i : ℕ) (bi : ℕ) (bv : ℤ) : ℕ :=
  match xs with
  | [] => bi
  | x :: rest => if bv < x then idxmaxGo rest (i + 1) i x else idxmaxGo rest (i + 1) bi bv

/-- pandas `Series.idxmax` (token_counter.py line 84): position of the first
occurrence of the maximum; raises on an empty series (modelled by `none`). -/
def idxmax (xs : List ℤ) : Option ℕ :=
  match xs with
  | [] => none
  | x :: rest => some (idxmaxGo rest 1 0 x)

/-- Scan for `idxmin`, mirroring `idxmaxGo` with the comparison reversed. -/
def idxminGo (xs : List ℤ) (i : ℕ) (bi : ℕ) (bv : ℤ) : ℕ :=
  match xs with
  | [] => bi
  | x :: rest => if x < bv then idxminGo rest (i + 1) i x else idxminGo rest (i + 1) bi bv

/-- pandas `Series.idxmin` (token_counter.py line 85): position of the first
occurrence of the minimum; raises on an empty series (modelled by `none`). -/
def idxmin (xs : List ℤ) : Option ℕ :=
  match xs with
  | [] => none
  | x :: rest => some (idxminGo rest 1 0 x)

/-- The `diff_stats` dictionary of token_counter.py lines 38-44. -/
structure DiffStats where
  mean_difference : Option ℚ
  median_difference : Option ℚ
  std_difference : Option ℝ
  max_difference : Option ℤ
  min_difference : Option ℤ

/-- Input/output cost pair for one language and one tier. -/
structure LangCosts where
  input : ℚ
  output : ℚ
deriving DecidableEq, Repr

/-- Costs for one tier, per language. -/
structure TierCosts where
  english : LangCosts
  icelandic : LangCosts
deriving DecidableEq, Repr

/-- Per-sentence costs (token_counter.py lines 71-80): computed from column
means, which are NaN on an empty dataframe. -/
structure SentenceCosts where
  english_input : Option ℚ
  english_output : Option ℚ
  icelandic_input : Option ℚ
  icelandic_output : Option ℚ
deriving DecidableEq, Repr

/-- The `costs` dictionary of token_counter.py lines 50-81. -/
structure Costs where
  standard : TierCosts
  batch : TierCosts
  per_sentence : SentenceCosts
deriving DecidableEq, Repr

/-- One entry of `example_pairs` (token_counter.py lines 88-101): the fields
looked up from the extremal row. -/
structure ExamplePair where
  english : Option String
  icelandic : Option String
  english_tokens : ℤ
  icelandic_tokens : ℤ
  difference : ℤ
deriving DecidableEq, Repr

/-- The `example_pairs` dictionary of token_counter.py lines 87-102. -/
structure ExamplePairs where
  largest_difference : ExamplePair
  smallest_difference : ExamplePair
deriving DecidableEq, Repr

/-- The tuple returned by `analyze_token_differences` (token_counter.py line
107); the `Counter` of differences is modelled as its count function. -/
structure Analysis where
  diff_stats : DiffStats
  example_pairs : ExamplePairs
  difference_distribution : ℤ → ℕ
  costs : Costs

/-- The fields of `example_pairs['largest_difference']` read from a row. -/
def examplePairOf (r : DecoratedRow) : ExamplePair :=
  { english := r.english
    icelandic := r.icelandic
    english_tokens := r.english_tokens
    icelandic_tokens := r.icelandic_tokens
    difference := r.token_difference }

/-- The `diff_stats` computation of token_counter.py lines 38-44 over the
`token_difference` column. -/
noncomputable def diff_statsOf (diffs : List ℤ) : DiffStats :=
  { mean_difference := seriesMean diffs
    median_difference := seriesMedian diffs
    std_difference := seriesStd diffs
    max_difference := diffs.max?
    min_difference := diffs.min? }

/-- The `costs` computation of token_counter.py lines 46-81. -/
def costsOf (ds : List DecoratedRow) : Costs :=
  let total_english_tokens : ℤ := (ds.map (fun r => r.english_tokens)).sum
  let total_icelandic_tokens : ℤ := (ds.map (fun r => r.icelandic_tokens)).sum
  let mean_english := seriesMean (ds.map (fun r => r.english_tokens))
  let mean_icelandic := seriesMean (ds.map (fun r => r.icelandic_tokens))
  { standard :=
      { english :=
          { input := calculate_cost (total_english_tokens : ℚ) PRICING_standard.input
            output := calculate_cost (total_english_tokens : ℚ) PRICING_standard.output }
        icelandic :=
          { input := calculate_cost (total_icelandic_tokens : ℚ) PRICING_standard.input
            output := calculate_cost (total_icelandic_tokens : ℚ) PRICING_standard.output } }
    batch :=
      { english :=
          { input := calculate_cost (total_english_tokens : ℚ) PRICING_batch.input
            output := calculate_cost (total_english_tokens : ℚ) PRICING_batch.output }
        icelandic :=
          { input := calculate_cost (total_icelandic_tokens : ℚ) PRICING_batch.input
            output := calculate_cost (total_icelandic_tokens : ℚ) PRICING_batch.output } }
    per_sentence :=
      { english_input := mean_english.map (fun m => calculate_cost m PRICING_standard.input)
        english_output := mean_english.map (fun m => calculate_cost m PRICING_standard.output)
        icelandic_input := mean_icelandic.map (fun m => calculate_cost m PRICING_standard.input)
        icelandic_output := mean_icelandic.map (fun m => calculate_cost m PRICING_standard.output) } }

/-- Unused default for `List.getD` row lookups that cannot miss: `df.loc` with
a label returned by `idxmax`/`idxmin` always finds its row. -/
def dRow : DecoratedRow :=
  { english := none, icelandic := none, english_tokens := 0
    icelandic_tokens := 0, token_difference := 0 }

/-- `analyze_token_differences(df)` (token_counter.py lines 32-107).  First the
`token_difference` column is added (line 35), then `diff_stats` and `costs`
are computed (neither of which can fail), then `idxmax`/`idxmin` identify the
extremal rows; on an empty dataframe `idxmax` raises a `ValueError`, modelled
as `Except.error`.  The `df.loc` lookups at the returned labels always
succeed, so they are modelled with `List.getD` (the default is never hit). -/
noncomputable def analyze_token_differences (rows : List Row) :
    Except String Analysis :=
  let ds := rows.map decorateRow
  let diffs := ds.map (fun r => r.token_difference)
  let stats := diff_statsOf diffs
  let costs := costsOf ds
  match idxmax diffs, idxmin diffs with
  | some mi, some ni =>
    Except.ok
      { diff_stats := stats
        example_pairs :=
          { largest_difference := examplePairOf (ds.getD mi dRow)
            smallest_difference := examplePairOf (ds.getD ni dRow) }
        difference_distribution := fun d => diffs.count d
        costs := costs }
  | _, _ => Except.error "attempt to get argmax of an empty sequence"

/-- A row of the input CSV as read by `pd.read_csv` (token_counter.py line
162): the two text columns plus optional pre-existing token columns from a
prior run (`none` when the column is absent for this row). -/
structure CsvRow where
  english : Option String
  icelandic : Option String
  pre_english_tokens : Option ℤ
  pre_icelandic_tokens : Option ℤ
  pre_token_difference : Option ℤ
deriving DecidableEq, Repr

/-- Token counting applied to one CSV row (token_counter.py lines 165-166):
the `english_tokens` and `icelandic_tokens` columns are assigned from
`count_tokens` over the text columns, overwriting any pre-existing values. -/
def tokenizeRow (encoding : String → List ℕ) (r : CsvRow) : Row :=
  { english := r.english
    icelandic := r.icelandic
    english_tokens := (count_tokens r.english encoding : ℤ)
    icelandic_tokens := (count_tokens r.icelandic encoding : ℤ) }

/-- The dataframe pipeline of `process_csv` (token_counter.py lines 157-178)
after reading the CSV: count tokens for both columns, run
`analyze_token_differences` (which adds `token_difference` to the dataframe),
and write the decorated dataframe; an exception from the analysis propagates
and nothing is written. -/
noncomputable def process_csv (encoding : String → List ℕ) (rows : List CsvRow) :
    Except String (List DecoratedRow) :=
  let df := rows.map (tokenizeRow encoding)
  match analyze_token_differences df with
  | Except.ok _ => Except.ok (df.map decorateRow)
  | Except.error e => Except.error e

/-- The `token_difference` column of the decorated dataframe, as a list. -/
def tokenDiffColumn (rows : List Row) : List ℤ :=
  (rows.map decorateRow).map (fun r => r.token_difference)

end TokenCounter

namespace Icetoke

/-- `count_tokens(text, encoding)` from icetoke.py lines 25-29: returns 0 when
`pd.isna(text)` or the text is the empty string, otherwise the length of
`encoding.encode(text)`. -/
def count_tokens (text : Option String) (encoding : String → List ℕ) : ℕ :=
  match text with
  | none => 0
  | some t => if t = "" then 0 else (encoding t).length

/-- Control-flow instrumented `count_tokens` for icetoke.py lines 25-29: the
second component records whether `encoding.encode` was invoked. -/
def count_tokens_instr (text : Option String) (encoding : String → List ℕ) :
    ℕ × Bool :=
  match text with
  | none => (0, false)
  | some t => if t = "" then (0, false) else ((encoding t).length, true)

/-- `calculate_cost(tokens, price_per_million)` from icetoke.py lines 31-33. -/
def calculate_cost (tokens price_per_million : ℚ) : ℚ :=
  (tokens * price_per_million) / 1000000

/-- The percentage-difference expression of icetoke.py line 249:
`(token_difference / english_tokens * 100) if english_tokens > 0 else 0`. -/
def percentage_difference (token_difference english_tokens : ℤ) : ℚ :=
  if 0 < english_tokens then
    (token_difference : ℚ) / (english_tokens : ℚ) * 100
  else 0

end Icetoke

namespace SpecModel

open TokenCounter

/-- Modelled from the spec: no length-bucketing code exists under src/; spec
section 4.3 step 3 calls for bucketing records "into four quartiles by source
(English) text character length".  The character length of the English cell
(a missing cell has length 0). -/
def englishLen (r : DecoratedRow) : ℕ := (r.english.getD "").length

/-- Modelled from the spec: the three quartile thresholds of the English text
character lengths, read off the sorted list of lengths at the quarter
positions. -/
def quartileThresholds (rows : List DecoratedRow) : ℕ × ℕ × ℕ :=
  let s := (rows.map englishLen).mergeSort (fun a b => a ≤ b)
  let n := rows.length
  (s.getD (n / 4) 0, s.getD (n / 2) 0, s.getD (3 * n / 4) 0)

/-- Modelled from the spec: the quartile bucket (0 = shortest-quartile …
3 = longest-quartile) a record is assigned to, by comparing its English text
character length against the quartile thresholds of the record set. -/
def lengthBucketOf (rows : List DecoratedRow) (r : DecoratedRow) : Fin 4 :=
  let t := quartileThresholds rows
  if englishLen r ≤ t.1 then 0
  else if englishLen r ≤ t.2.1 then 1
  else if englishLen r ≤ t.2.2 then 2
  else 3

/-- Modelled from the spec: the record set of one length bucket.  Records are
identified by row position (the spec's only stable key), so the buckets hold
position-record pairs of `rows.enum`. -/
def lengthBucket (rows : List DecoratedRow) (b : Fin 4) :
    List (ℕ × DecoratedRow) :=
  rows.enum.filter (fun p => lengthBucketOf rows p.2 == b)

end SpecModel

/-! Concrete encodings and inputs used to instantiate the theorems below. -/

/-- An encoding that returns no tokens for any text. -/
def encNil : String → List ℕ := fun _ => []

/-- An encoding that returns one token per character of the text. -/
def encLen : String → List ℕ := fun s => List.replicate s.length 0

/-- The spec's one-row scenario: "hello world" at 2 tokens, "halló heimur" at 3. -/
def wRow : TokenCounter.Row :=
  { english := some "hello world"
    icelandic := some "halló heimur"
    english_tokens := 2
    icelandic_tokens := 3 }

/-- Two rows whose token differences are 1 and 3. -/
def wRows7 : List TokenCounter.Row :=
  [⟨none, none, 0, 1⟩, ⟨none, none, 0, 3⟩]

/-- Four rows whose token differences are 1, 5, 5, 0: the maximum 5 is tied
between positions 1 and 2. -/
def wRows8 : List TokenCounter.Row :=
  [⟨none, none, 0, 1⟩, ⟨none, none, 0, 5⟩, ⟨none, none, 1, 6⟩, ⟨none, none, 2, 2⟩]

/-- Two decorated rows with English texts of character lengths 2 and 6. -/
def wRows5 : List TokenCounter.DecoratedRow :=
  [⟨some "ab", none, 1, 2, 1⟩, ⟨some "abcdef", none, 2, 3, 1⟩]

/-- A CSV row carrying no pre-existing token columns. -/
def wCsv1 : TokenCounter.CsvRow := ⟨some "hello", some "halló", none, none, none⟩

/-- A CSV row with the same texts as `wCsv1` but stale pre-existing token
columns. -/
def wCsv2 : TokenCounter.CsvRow := ⟨some "hello", some "halló", some 99, some 1, some 42⟩


/-! Claim theorems. -/

/-- C1: every record in the decorated record set produced by the analysis has
`token_difference = icelandic_tokens - english_tokens`. -/
theorem c1_token_difference_recomputed (rows : List TokenCounter.Row)
    (d : TokenCounter.DecoratedRow)
    (hd : d ∈ rows.map TokenCounter.decorateRow) :
    d.token_difference = d.icelandic_tokens - d.english_tokens := by
  obtain ⟨r, _, rfl⟩ := List.mem_map.1 hd
  rfl

/-- C1 witness: the decorated form of the spec's scenario row satisfies the
invariant. -/
theorem c1_token_difference_recomputed_witness :
    (TokenCounter.decorateRow wRow).token_difference =
      (TokenCounter.decorateRow wRow).icelandic_tokens -
        (TokenCounter.decorateRow wRow).english_tokens :=
  c1_token_difference_recomputed [wRow] (TokenCounter.decorateRow wRow)
    (List.mem_map.2 ⟨wRow, List.mem_singleton.2 rfl, rfl⟩)

/-- C2: `calculate_cost` equals `tokens * price / 1_000_000`, is non-negative
on non-negative inputs, sends zero tokens to zero cost, prices one million
tokens at the per-million price, and is monotone in the token count. -/
theorem c2_calculate_cost_formula (t p : ℚ) (ht : 0 ≤ t) (hp : 0 ≤ p) :
    TokenCounter.calculate_cost t p = t * p / 1000000 ∧
    0 ≤ TokenCounter.calculate_cost t p ∧
    TokenCounter.calculate_cost 0 p = 0 ∧
    TokenCounter.calculate_cost 1000000 (2.50 : ℚ) = 2.50 ∧
    ∀ t', t ≤ t' → TokenCounter.calculate_cost t p ≤ TokenCounter.calculate_cost t' p := by
  refine ⟨rfl, ?_, ?_, ?_, ?_⟩
  · exact div_nonneg (mul_nonneg ht hp) (by norm_num)
  · simp [TokenCounter.calculate_cost]
  · norm_num [TokenCounter.calculate_cost]
  · intro t' h
    unfold TokenCounter.calculate_cost
    gcongr

/-- C2 witness: the cost formula at 3 tokens and a price of 2 dollars per
million tokens. -/
theorem c2_calculate_cost_formula_witness :
    TokenCounter.calculate_cost 3 2 = 3 * 2 / 1000000 ∧
    0 ≤ TokenCounter.calculate_cost 3 2 ∧
    TokenCounter.calculate_cost 0 2 = 0 ∧
    TokenCounter.calculate_cost 1000000 (2.50 : ℚ) = 2.50 ∧
    ∀ t', (3 : ℚ) ≤ t' → TokenCounter.calculate_cost 3 2 ≤ TokenCounter.calculate_cost t' 2 :=
  c2_calculate_cost_formula 3 2 (by norm_num) (by norm_num)

/-- C10: on the empty record set, `analyze_token_differences` fails (the
`idxmax` of the empty `token_difference` column raises) and no summary is
produced. -/
theorem c10_empty_analysis_fails :
    TokenCounter.analyze_token_differences [] =
      Except.error "attempt to get argmax of an empty sequence" := rfl

/-- C4 counterexample: on a one-row record set, `analyze_token_differences`
succeeds and returns a summary; it does not fail with any error, so in
particular no `InsufficientDataError` is raised for `n < 2`. -/
theorem c4_counterexample_single_row_succeeds :
    (TokenCounter.analyze_token_differences [wRow]).isOk = true := rfl

/-- C4 amended: the engine computes no confidence interval and defines no
`InsufficientDataError`; on any one-row record set it succeeds, returning a
summary whose standard deviation is undefined (NaN) and whose mean is the
single record's token difference. -/
theorem c4_amended_single_row_summary (r : TokenCounter.Row) :
    ∃ s, TokenCounter.analyze_token_differences [r] = Except.ok s ∧
      s.diff_stats.std_difference = none ∧
      s.diff_stats.mean_difference =
        some ((r.icelandic_tokens - r.english_tokens : ℤ) : ℚ) := by
  refine ⟨_, rfl, ?_, ?_⟩
  · simp [TokenCounter.diff_statsOf, TokenCounter.seriesStd, TokenCounter.seriesVar,
      TokenCounter.decorateRow]
  · simp [TokenCounter.diff_statsOf, TokenCounter.seriesMean, TokenCounter.decorateRow]

/-- C4 witness: the amended statement at the spec's one-row scenario. -/
theorem c4_amended_single_row_summary_witness :
    ∃ s, TokenCounter.analyze_token_differences [wRow] = Except.ok s ∧
      s.diff_stats.std_difference = none ∧
      s.diff_stats.mean_difference =
        some ((wRow.icelandic_tokens - wRow.english_tokens : ℤ) : ℚ) :=
  c4_amended_single_row_summary wRow

/-- C6 counterexample: the percentage computation of icetoke.py line 249
reports plain `0` when `english_tokens = 0` — a silent zero indistinguishable
from a genuinely zero ratio, not an explicit undefined value. -/
theorem c6_counterexample_silent_zero :
    Icetoke.percentage_difference 5 0 = 0 ∧
    Icetoke.percentage_difference 5 0 = Icetoke.percentage_difference 0 7 := by
  constructor <;> norm_num [Icetoke.percentage_difference]

/-- C6 amended: the computation never raises, but with a zero (or negative)
denominator it silently coerces the percentage to `0` rather than reporting an
explicit undefined value; with a positive denominator it reports
`token_difference / english_tokens * 100`. -/
theorem c6_amended_percentage (td et : ℤ) :
    (et ≤ 0 → Icetoke.percentage_difference td et = 0) ∧
    (0 < et → Icetoke.percentage_difference td et = (td : ℚ) / (et : ℚ) * 100) := by
  constructor
  · intro h
    simp [Icetoke.percentage_difference, not_lt.2 h]
  · intro h
    simp [Icetoke.percentage_difference, h]

/-- C6 witness: the amended statement at a zero denominator and at a positive
one. -/
theorem c6_amended_percentage_witness :
    Icetoke.percentage_difference 7 0 = 0 ∧
    Icetoke.percentage_difference 3 2 = ((3 : ℤ) : ℚ) / ((2 : ℤ) : ℚ) * 100 :=
  ⟨(c6_amended_percentage 7 0).1 (by norm_num),
   (c6_amended_percentage 3 2).2 (by norm_num)⟩

/-- C3 counterexample: in token_counter.py's `count_tokens`, an empty (but
non-NaN) text cell does invoke the tokenizer — the instrumented embedding
records the call — contradicting "the tokenizer is not invoked on that cell"
for every missing or empty cell. -/
theorem c3_counterexample_empty_cell_encoded :
    TokenCounter.count_tokens_instr (some "") encNil = (0, true) := rfl

/-- C3 amended: a missing (NaN) cell yields 0 without invoking the tokenizer
in both versions; an empty-string cell yields 0 without invoking the
tokenizer in icetoke.py's version, while token_counter.py's version invokes
the tokenizer on it and returns the length of its encoding; for non-empty
text, both versions return the length of the encoding, which is at least 1
whenever the (opaque) tokenizer emits at least one token. -/
theorem c3_amended_count_tokens (encoding : String → List ℕ) (t : String)
    (ht : t ≠ "") (htok : 1 ≤ (encoding t).length) :
    TokenCounter.count_tokens_instr none encoding = (0, false) ∧
    Icetoke.count_tokens_instr none encoding = (0, false) ∧
    Icetoke.count_tokens_instr (some "") encoding = (0, false) ∧
    TokenCounter.count_tokens_instr (some "") encoding = ((encoding "").length, true) ∧
    1 ≤ TokenCounter.count_tokens (some t) encoding ∧
    1 ≤ Icetoke.count_tokens (some t) encoding := by
  refine ⟨rfl, rfl, rfl, rfl, htok, ?_⟩
  simpa [Icetoke.count_tokens, ht] using htok

/-- C3 witness: the amended statement under the one-token-per-character
encoding at the text "hi". -/
theorem c3_amended_count_tokens_witness :
    TokenCounter.count_tokens_instr none encLen = (0, false) ∧
    Icetoke.count_tokens_instr none encLen = (0, false) ∧
    Icetoke.count_tokens_instr (some "") encLen = (0, false) ∧
    TokenCounter.count_tokens_instr (some "") encLen = ((encLen "").length, true) ∧
    1 ≤ TokenCounter.count_tokens (some "hi") encLen ∧
    1 ≤ Icetoke.count_tokens (some "hi") encLen :=
  c3_amended_count_tokens encLen "hi" (by decide) (by decide)

/-- C9: the loader always recomputes token counts — two CSV inputs that agree
on the `english` and `icelandic` text columns produce identical results from
`process_csv`, whatever pre-existing `english_tokens`, `icelandic_tokens` or
`token_difference` columns either of them carries. -/
theorem c9_loader_recomputes (encoding : String → List ℕ)
    (rows1 rows2 : List TokenCounter.CsvRow)
    (h : rows1.map (fun r => (r.english, r.icelandic)) =
         rows2.map (fun r => (r.english, r.icelandic))) :
    TokenCounter.process_csv encoding rows1 =
      TokenCounter.process_csv encoding rows2 := by
  have key : ∀ rows : List TokenCounter.CsvRow,
      rows.map (TokenCounter.tokenizeRow encoding) =
        (rows.map (fun r => (r.english, r.icelandic))).map
          (fun p => TokenCounter.tokenizeRow encoding ⟨p.1, p.2, none, none, none⟩) := by
    intro rows
    rw [List.map_map]
    rfl
  unfold TokenCounter.process_csv
  rw [key rows1, key rows2, h]

/-- C9 witness: a row without pre-existing token columns and one with stale
pre-existing token columns, with equal texts, process identically. -/
theorem c9_loader_recomputes_witness :
    TokenCounter.process_csv encLen [wCsv1] =
      TokenCounter.process_csv encLen [wCsv2] :=
  c9_loader_recomputes encLen [wCsv1] [wCsv2] rfl

/-- C5: length-bucketing assigns every record (identified by row position) to
exactly one of the 4 quartile buckets, and every bucket member comes from the
input record set — the buckets are pairwise disjoint and their union is the
input.  The bucketing itself is modelled from the spec, since no bucketing
code exists under src/. -/
theorem c5_bucketing_partitions (rows : List TokenCounter.DecoratedRow)
    (p : ℕ × TokenCounter.DecoratedRow) :
    (p ∈ rows.enum → ∃! b : Fin 4, p ∈ SpecModel.lengthBucket rows b) ∧
    (∀ b : Fin 4, p ∈ SpecModel.lengthBucket rows b → p ∈ rows.enum) := by
  constructor
  · intro hp
    refine ⟨SpecModel.lengthBucketOf rows p.2, ?_, ?_⟩
    · simp [SpecModel.lengthBucket, List.mem_filter, hp]
    · intro b hb
      have h := (List.mem_filter.1 hb).2
      simp only [beq_iff_eq] at h
      exact h.symm
  · intro b hb
    exact (List.mem_filter.1 hb).1

/-- C5 witness: the first record of a concrete two-record set lies in exactly
one bucket. -/
theorem c5_bucketing_partitions_witness :
    ∃! b : Fin 4,
      (0, (⟨some "ab", none, 1, 2, 1⟩ : TokenCounter.DecoratedRow)) ∈
        SpecModel.lengthBucket wRows5 b :=
  (c5_bucketing_partitions wRows5 (0, ⟨some "ab", none, 1, 2, 1⟩)).1
    (by simp [wRows5, List.enum])

/-- Casting a sum of rationals to the reals is the sum of the casts. -/
theorem ratCast_list_sum (l : List ℚ) :
    ((l.sum : ℚ) : ℝ) = (l.map (Rat.cast : ℚ → ℝ)).sum := by
  induction l with
  | nil => simp
  | cons x xs ih => simp [List.sum_cons, ih]

/-- Casting integers to the rationals and then to the reals is casting to the
reals. -/
theorem map_ratCast_intCast (xs : List ℤ) :
    (xs.map (Int.cast : ℤ → ℚ)).map (Rat.cast : ℚ → ℝ) = xs.map (Int.cast : ℤ → ℝ) := by
  rw [List.map_map]
  refine List.map_congr_left ?_
  intro x _
  simp

/-- For a series of at least two integers, `seriesStd` is defined,
non-negative, and its square times `n - 1` is the sum of the squared
deviations from the mean. -/
theorem seriesStd_spec (xs : List ℤ) (h : 2 ≤ xs.length) :
    ∃ σ : ℝ, TokenCounter.seriesStd xs = some σ ∧ 0 ≤ σ ∧
      σ ^ 2 * ((xs.length : ℝ) - 1) =
        (xs.map (fun x : ℤ => ((x : ℝ) -
          (xs.map (Int.cast : ℤ → ℝ)).sum / (xs.length : ℝ)) ^ 2)).sum := by
  have hvar : TokenCounter.seriesVar xs =
      some (((xs.map (fun x : ℤ => ((x : ℚ) -
          (xs.map (Int.cast : ℤ → ℚ)).sum / (xs.length : ℚ)) ^ 2)).sum) /
        ((xs.length : ℚ) - 1)) := by
    simp [TokenCounter.seriesVar, h]
  set Q : ℚ := (xs.map (fun x : ℤ => ((x : ℚ) -
      (xs.map (Int.cast : ℤ → ℚ)).sum / (xs.length : ℚ)) ^ 2)).sum with hQ
  set D : ℚ := ((xs.length : ℚ) - 1) with hD
  have hQ0 : 0 ≤ Q := by
    rw [hQ]
    refine List.sum_nonneg ?_
    intro y hy
    obtain ⟨x, _, rfl⟩ := List.mem_map.1 hy
    positivity
  have h2q : (2 : ℚ) ≤ (xs.length : ℚ) := by exact_mod_cast h
  have hD0 : 0 < D := by rw [hD]; linarith
  have hV0 : (0 : ℚ) ≤ Q / D := div_nonneg hQ0 hD0.le
  refine ⟨Real.sqrt ((Q / D : ℚ) : ℝ), ?_, Real.sqrt_nonneg _, ?_⟩
  · simp [TokenCounter.seriesStd, hvar]
  · have hge : (0 : ℝ) ≤ ((Q / D : ℚ) : ℝ) := by exact_mod_cast hV0
    rw [Real.sq_sqrt hge]
    have hDcast : ((D : ℚ) : ℝ) = (xs.length : ℝ) - 1 := by
      rw [hD]; push_cast; ring
    have hDne : ((D : ℚ) : ℝ) ≠ 0 := by
      rw [hDcast]
      have h2r : (2 : ℝ) ≤ (xs.length : ℝ) := by exact_mod_cast h
      linarith
    have key : ((Q / D : ℚ) : ℝ) * ((xs.length : ℝ) - 1) = ((Q : ℚ) : ℝ) := by
      rw [Rat.cast_div, ← hDcast, div_mul_cancel₀ _ hDne]
    rw [key]
    rw [hQ, ratCast_list_sum, List.map_map]
    refine congrArg List.sum (List.map_congr_left ?_)
    intro x hx
    simp only [Function.comp_apply]
    push_cast [map_ratCast_intCast]
    ring

/-- C7: the standard deviation of `token_difference` reported by the analysis
is the sample standard deviation with `n - 1` denominator: for at least two
records it is defined, non-negative, and its square times `n - 1` equals the
sum of squared deviations of the token differences from their mean — that is,
it equals `sqrt(sum((x_i - mean)^2) / (n - 1))`. -/
theorem c7_std_is_sample_std (rows : List TokenCounter.Row)
    (h : 2 ≤ rows.length) :
    ∃ σ : ℝ,
      (TokenCounter.diff_statsOf (TokenCounter.tokenDiffColumn rows)).std_difference =
        some σ ∧
      0 ≤ σ ∧
      σ ^ 2 * ((rows.length : ℝ) - 1) =
        ((TokenCounter.tokenDiffColumn rows).map (fun x : ℤ => ((x : ℝ) -
          ((TokenCounter.tokenDiffColumn rows).map (Int.cast : ℤ → ℝ)).sum /
            (rows.length : ℝ)) ^ 2)).sum := by
  have hlen : (TokenCounter.tokenDiffColumn rows).length = rows.length := by
    simp [TokenCounter.tokenDiffColumn]
  have h2 : 2 ≤ (TokenCounter.tokenDiffColumn rows).length := by rw [hlen]; exact h
  obtain ⟨σ, hs, h0, hsq⟩ := seriesStd_spec (TokenCounter.tokenDiffColumn rows) h2
  rw [hlen] at hsq
  exact ⟨σ, hs, h0, hsq⟩

/-- C7 witness: the reported standard deviation of the two-row record set with
token differences 1 and 3. -/
theorem c7_std_is_sample_std_witness :
    ∃ σ : ℝ,
      (TokenCounter.diff_statsOf (TokenCounter.tokenDiffColumn wRows7)).std_difference =
        some σ ∧
      0 ≤ σ ∧
      σ ^ 2 * ((wRows7.length : ℝ) - 1) =
        ((TokenCounter.tokenDiffColumn wRows7).map (fun x : ℤ => ((x : ℝ) -
          ((TokenCounter.tokenDiffColumn wRows7).map (Int.cast : ℤ → ℝ)).sum /
            (wRows7.length : ℝ)) ^ 2)).sum :=
  c7_std_is_sample_std wRows7 (by decide)

/-- Invariant of the `idxmaxGo` scan: if `bi` is the first position of the
maximum of `pre` and `bv` its value, the scan over `pre ++ rest` returns the
first position of the overall maximum. -/
theorem idxmaxGo_spec (rest : List ℤ) :
    ∀ (pre : List ℤ) (bi : ℕ) (bv : ℤ),
      bi < pre.length →
      pre.getD bi 0 = bv →
      (∀ j, j < pre.length → pre.getD j 0 ≤ bv) →
      (∀ j, j < bi → pre.getD j 0 < bv) →
      (TokenCounter.idxmaxGo rest pre.length bi bv < (pre ++ rest).length ∧
       (∀ j, j < (pre ++ rest).length →
         (pre ++ rest).getD j 0 ≤
           (pre ++ rest).getD (TokenCounter.idxmaxGo rest pre.length bi bv) 0) ∧
       (∀ j, j < TokenCounter.idxmaxGo rest pre.length bi bv →
         (pre ++ rest).getD j 0 <
           (pre ++ rest).getD (TokenCounter.idxmaxGo rest pre.length bi bv) 0)) := by
  induction rest with
  | nil =>
    intro pre bi bv h1 h2 h3 h4
    simp only [TokenCounter.idxmaxGo, List.append_nil]
    refine ⟨h1, ?_, ?_⟩
    · intro j hj
      rw [h2]
      exact h3 j hj
    · intro j hj
      rw [h2]
      exact h4 j hj
  | cons x rest ih =>
    intro pre bi bv h1 h2 h3 h4
    have hx : (pre ++ [x]).getD pre.length 0 = x := by
      rw [List.getD_append_right pre [x] 0 pre.length le_rfl]
      simp
    have hlen1 : (pre ++ [x]).length = pre.length + 1 := by simp
    have hassoc : (pre ++ [x]) ++ rest = pre ++ (x :: rest) := by
      rw [List.append_assoc]
      rfl
    simp only [TokenCounter.idxmaxGo]
    by_cases hlt : bv < x
    · rw [if_pos hlt]
      have h1' : pre.length < (pre ++ [x]).length := by simp
      have h3' : ∀ j, j < (pre ++ [x]).length → (pre ++ [x]).getD j 0 ≤ x := by
        intro j hj
        rw [hlen1] at hj
        rcases Nat.lt_succ_iff_lt_or_eq.1 hj with hj' | hj'
        · rw [List.getD_append pre [x] 0 j hj']
          exact le_of_lt (lt_of_le_of_lt (h3 j hj') hlt)
        · subst hj'
          rw [hx]
      have h4' : ∀ j, j < pre.length → (pre ++ [x]).getD j 0 < x := by
        intro j hj
        rw [List.getD_append pre [x] 0 j hj]
        exact lt_of_le_of_lt (h3 j hj) hlt
      have hrec := ih (pre ++ [x]) pre.length x h1' hx h3' h4'
      rw [hassoc, hlen1] at hrec
      exact hrec
    · rw [if_neg hlt]
      push_neg at hlt
      have h1' : bi < (pre ++ [x]).length := by
        rw [hlen1]
        exact Nat.lt_succ_of_lt h1
      have h2' : (pre ++ [x]).getD bi 0 = bv := by
        rw [List.getD_append pre [x] 0 bi h1]
        exact h2
      have h3' : ∀ j, j < (pre ++ [x]).length → (pre ++ [x]).getD j 0 ≤ bv := by
        intro j hj
        rw [hlen1] at hj
        rcases Nat.lt_succ_iff_lt_or_eq.1 hj with hj' | hj'
        · rw [List.getD_append pre [x] 0 j hj']
          exact h3 j hj'
        · subst hj'
          rw [hx]
          exact hlt
      have h4' : ∀ j, j < bi → (pre ++ [x]).getD j 0 < bv := by
        intro j hj
        rw [List.getD_append pre [x] 0 j (lt_trans hj h1)]
        exact h4 j hj
      have hrec := ih (pre ++ [x]) bi bv h1' h2' h3' h4'
      rw [hassoc, hlen1] at hrec
      exact hrec

/-- `idxmax` of a non-empty series returns the position of the first
occurrence of the maximum: every value is at most the value there, and every
earlier value is strictly smaller. -/
theorem idxmax_first (xs : List ℤ) (h : xs ≠ []) :
    ∃ i, TokenCounter.idxmax xs = some i ∧ i < xs.length ∧
      (∀ j, j < xs.length → xs.getD j 0 ≤ xs.getD i 0) ∧
      (∀ j, j < i → xs.getD j 0 < xs.getD i 0) := by
  match xs, h with
  | x :: rest, _ =>
    have hspec := idxmaxGo_spec rest [x] 0 x (by simp) (by simp) ?_ ?_
    · refine ⟨TokenCounter.idxmaxGo rest 1 0 x, rfl, ?_⟩
      simpa using hspec
    · intro j hj
      simp only [List.length_singleton] at hj
      have hj0 : j = 0 := Nat.lt_one_iff.1 hj
      subst hj0
      simp
    · intro j hj
      omega

/-- Invariant of the `idxminGo` scan, mirroring `idxmaxGo_spec`. -/
theorem idxminGo_spec (rest : List ℤ) :
    ∀ (pre : List ℤ) (bi : ℕ) (bv : ℤ),
      bi < pre.length →
      pre.getD bi 0 = bv →
      (∀ j, j < pre.length → bv ≤ pre.getD j 0) →
      (∀ j, j < bi → bv < pre.getD j 0) →
      (TokenCounter.idxminGo rest pre.length bi bv < (pre ++ rest).length ∧
       (∀ j, j < (pre ++ rest).length →
         (pre ++ rest).getD (TokenCounter.idxminGo rest pre.length bi bv) 0 ≤
           (pre ++ rest).getD j 0) ∧
       (∀ j, j < TokenCounter.idxminGo rest pre.length bi bv →
         (pre ++ rest).getD (TokenCounter.idxminGo rest pre.length bi bv) 0 <
           (pre ++ rest).getD j 0)) := by
  induction rest with
  | nil =>
    intro pre bi bv h1 h2 h3 h4
    simp only [TokenCounter.idxminGo, List.append_nil]
    refine ⟨h1, ?_, ?_⟩
    · intro j hj
      rw [h2]
      exact h3 j hj
    · intro j hj
      rw [h2]
      exact h4 j hj
  | cons x rest ih =>
    intro pre bi bv h1 h2 h3 h4
    have hx : (pre ++ [x]).getD pre.length 0 = x := by
      rw [List.getD_append_right pre [x] 0 pre.length le_rfl]
      simp
    have hlen1 : (pre ++ [x]).length = pre.length + 1 := by simp
    have hassoc : (pre ++ [x]) ++ rest = pre ++ (x :: rest) := by
      rw [List.append_assoc]
      rfl
    simp only [TokenCounter.idxminGo]
    by_cases hlt : x < bv
    · rw [if_pos hlt]
      have h1' : pre.length < (pre ++ [x]).length := by simp
      have h3' : ∀ j, j < (pre ++ [x]).length → x ≤ (pre ++ [x]).getD j 0 := by
        intro j hj
        rw [hlen1] at hj
        rcases Nat.lt_succ_iff_lt_or_eq.1 hj with hj' | hj'
        · rw [List.getD_append pre [x] 0 j hj']
          exact le_of_lt (lt_of_lt_of_le hlt (h3 j hj'))
        · subst hj'
          rw [hx]
      have h4' : ∀ j, j < pre.length → x < (pre ++ [x]).getD j 0 := by
        intro j hj
        rw [List.getD_append pre [x] 0 j hj]
        exact lt_of_lt_of_le hlt (h3 j hj)
      have hrec := ih (pre ++ [x]) pre.length x h1' hx h3' h4'
      rw [hassoc, hlen1] at hrec
      exact hrec
    · rw [if_neg hlt]
      push_neg at hlt
      have h1' : bi < (pre ++ [x]).length := by
        rw [hlen1]
        exact Nat.lt_succ_of_lt h1
      have h2' : (pre ++ [x]).getD bi 0 = bv := by
        rw [List.getD_append pre [x] 0 bi h1]
        exact h2
      have h3' : ∀ j, j < (pre ++ [x]).length → bv ≤ (pre ++ [x]).getD j 0 := by
        intro j hj
        rw [hlen1] at hj
        rcases Nat.lt_succ_iff_lt_or_eq.1 hj with hj' | hj'
        · rw [List.getD_append pre [x] 0 j hj']
          exact h3 j hj'
        · subst hj'
          rw [hx]
          exact hlt
      have h4' : ∀ j, j < bi → bv < (pre ++ [x]).getD j 0 := by
        intro j hj
        rw [List.getD_append pre [x] 0 j (lt_trans hj h1)]
        exact h4 j hj
      have hrec := ih (pre ++ [x]) bi bv h1' h2' h3' h4'
      rw [hassoc, hlen1] at hrec
      exact hrec

/-- `idxmin` of a non-empty series returns the position of the first
occurrence of the minimum. -/
theorem idxmin_first (xs : List ℤ) (h : xs ≠ []) :
    ∃ i, TokenCounter.idxmin xs = some i ∧ i < xs.length ∧
      (∀ j, j < xs.length → xs.getD i 0 ≤ xs.getD j 0) ∧
      (∀ j, j < i → xs.getD i 0 < xs.getD j 0) := by
  match xs, h with
  | x :: rest, _ =>
    have hspec := idxminGo_spec rest [x] 0 x (by simp) (by simp) ?_ ?_
    · refine ⟨TokenCounter.idxminGo rest 1 0 x, rfl, ?_⟩
      simpa using hspec
    · intro j hj
      simp only [List.length_singleton] at hj
      have hj0 : j = 0 := Nat.lt_one_iff.1 hj
      subst hj0
      simp
    · intro j hj
      omega

/-- On a non-empty record set, `analyze_token_differences` succeeds and its
example pairs are read from the rows at the `idxmax`/`idxmin` positions. -/
theorem analyze_ok_of_ne_nil (rows : List TokenCounter.Row) (h : rows ≠ []) :
    ∃ mi ni,
      TokenCounter.idxmax (TokenCounter.tokenDiffColumn rows) = some mi ∧
      TokenCounter.idxmin (TokenCounter.tokenDiffColumn rows) = some ni ∧
      mi < rows.length ∧ ni < rows.length ∧
      TokenCounter.analyze_token_differences rows = Except.ok
        { diff_stats := TokenCounter.diff_statsOf (TokenCounter.tokenDiffColumn rows)
          example_pairs :=
            { largest_difference := TokenCounter.examplePairOf
                ((rows.map TokenCounter.decorateRow).getD mi TokenCounter.dRow)
              smallest_difference := TokenCounter.examplePairOf
                ((rows.map TokenCounter.decorateRow).getD ni TokenCounter.dRow) }
          difference_distribution := fun d => (TokenCounter.tokenDiffColumn rows).count d
          costs := TokenCounter.costsOf (rows.map TokenCounter.decorateRow) } := by
  have hne : TokenCounter.tokenDiffColumn rows ≠ [] := by
    intro hc
    apply h
    simpa [TokenCounter.tokenDiffColumn] using hc
  obtain ⟨mi, hmax1, hmax2, _, _⟩ := idxmax_first _ hne
  obtain ⟨ni, hmin1, hmin2, _, _⟩ := idxmin_first _ hne
  have hlen : (TokenCounter.tokenDiffColumn rows).length = rows.length := by
    simp [TokenCounter.tokenDiffColumn]
  have hmax1' : TokenCounter.idxmax
      ((rows.map TokenCounter.decorateRow).map (fun r => r.token_difference)) = some mi := hmax1
  have hmin1' : TokenCounter.idxmin
      ((rows.map TokenCounter.decorateRow).map (fun r => r.token_difference)) = some ni := hmin1
  refine ⟨mi, ni, hmax1, hmin1, hlen ▸ hmax2, hlen ▸ hmin2, ?_⟩
  show ((match TokenCounter.idxmax
          ((rows.map TokenCounter.decorateRow).map (fun r => r.token_difference)),
        TokenCounter.idxmin
          ((rows.map TokenCounter.decorateRow).map (fun r => r.token_difference)) with
    | some mi, some ni =>
      Except.ok
        { diff_stats := TokenCounter.diff_statsOf
            ((rows.map TokenCounter.decorateRow).map (fun r => r.token_difference))
          example_pairs :=
            { largest_difference := TokenCounter.examplePairOf
                ((rows.map TokenCounter.decorateRow).getD mi TokenCounter.dRow)
              smallest_difference := TokenCounter.examplePairOf
                ((rows.map TokenCounter.decorateRow).getD ni TokenCounter.dRow) }
          difference_distribution := fun d =>
            ((rows.map TokenCounter.decorateRow).map (fun r => r.token_difference)).count d
          costs := TokenCounter.costsOf (rows.map TokenCounter.decorateRow) }
    | _, _ =>
      Except.error "attempt to get argmax of an empty sequence") :
    Except String TokenCounter.Analysis) = _
  rw [hmax1', hmin1']
  rfl

/-- C8: on a non-empty record set the analysis succeeds, and the example
records with the largest and smallest `token_difference` are the rows at the
`idxmax`/`idxmin` positions, which are the FIRST positions attaining the
maximum (resp. minimum): every token difference is bounded by the value
there, and every strictly earlier row has a strictly smaller (resp. larger)
token difference. -/
theorem c8_extreme_examples_first_occurrence (rows : List TokenCounter.Row)
    (h : rows ≠ []) :
    ∃ s mi ni,
      TokenCounter.analyze_token_differences rows = Except.ok s ∧
      TokenCounter.idxmax (TokenCounter.tokenDiffColumn rows) = some mi ∧
      TokenCounter.idxmin (TokenCounter.tokenDiffColumn rows) = some ni ∧
      mi < rows.length ∧ ni < rows.length ∧
      s.example_pairs.largest_difference = TokenCounter.examplePairOf
        ((rows.map TokenCounter.decorateRow).getD mi TokenCounter.dRow) ∧
      s.example_pairs.smallest_difference = TokenCounter.examplePairOf
        ((rows.map TokenCounter.decorateRow).getD ni TokenCounter.dRow) ∧
      (∀ j, j < rows.length → (TokenCounter.tokenDiffColumn rows).getD j 0 ≤
        (TokenCounter.tokenDiffColumn rows).getD mi 0) ∧
      (∀ j, j < mi → (TokenCounter.tokenDiffColumn rows).getD j 0 <
        (TokenCounter.tokenDiffColumn rows).getD mi 0) ∧
      (∀ j, j < rows.length → (TokenCounter.tokenDiffColumn rows).getD ni 0 ≤
        (TokenCounter.tokenDiffColumn rows).getD j 0) ∧
      (∀ j, j < ni → (TokenCounter.tokenDiffColumn rows).getD ni 0 <
        (TokenCounter.tokenDiffColumn rows).getD j 0) := by
  have hne : TokenCounter.tokenDiffColumn rows ≠ [] := by
    intro hc
    apply h
    simpa [TokenCounter.tokenDiffColumn] using hc
  have hlen : (TokenCounter.tokenDiffColumn rows).length = rows.length := by
    simp [TokenCounter.tokenDiffColumn]
  obtain ⟨mi, ni, hid1, hid2, hmi, hni, hok⟩ := analyze_ok_of_ne_nil rows h
  obtain ⟨mi2, hid1b, _, hle, hfm⟩ := idxmax_first _ hne
  obtain ⟨ni2, hid2b, _, hge, hfn⟩ := idxmin_first _ hne
  rw [hid1] at hid1b
  rw [hid2] at hid2b
  obtain rfl : mi = mi2 := Option.some.inj hid1b
  obtain rfl : ni = ni2 := Option.some.inj hid2b
  refine ⟨_, mi, ni, hok, hid1, hid2, hmi, hni, rfl, rfl, ?_, hfm, ?_, hfn⟩
  · intro j hj
    exact hle j (by rw [hlen]; exact hj)
  · intro j hj
    exact hge j (by rw [hlen]; exact hj)

/-- C8 witness: the four-row record set with token differences 1, 5, 5, 0 —
the maximum is tied between positions 1 and 2 and the idxmax position is the
first of them. -/
theorem c8_extreme_examples_first_occurrence_witness :
    ∃ s mi ni,
      TokenCounter.analyze_token_differences wRows8 = Except.ok s ∧
      TokenCounter.idxmax (TokenCounter.tokenDiffColumn wRows8) = some mi ∧
      TokenCounter.idxmin (TokenCounter.tokenDiffColumn wRows8) = some ni ∧
      mi < wRows8.length ∧ ni < wRows8.length ∧
      s.example_pairs.largest_difference = TokenCounter.examplePairOf
        ((wRows8.map TokenCounter.decorateRow).getD mi TokenCounter.dRow) ∧
      s.example_pairs.smallest_difference = TokenCounter.examplePairOf
        ((wRows8.map TokenCounter.decorateRow).getD ni TokenCounter.dRow) ∧
      (∀ j, j < wRows8.length → (TokenCounter.tokenDiffColumn wRows8).getD j 0 ≤
        (TokenCounter.tokenDiffColumn wRows8).getD mi 0) ∧
      (∀ j, j < mi → (TokenCounter.tokenDiffColumn wRows8).getD j 0 <
        (TokenCounter.tokenDiffColumn wRows8).getD mi 0) ∧
      (∀ j, j < wRows8.length → (TokenCounter.tokenDiffColumn wRows8).getD ni 0 ≤
        (TokenCounter.tokenDiffColumn wRows8).getD j 0) ∧
      (∀ j, j < ni → (TokenCounter.tokenDiffColumn wRows8).getD ni 0 <
        (TokenCounter.tokenDiffColumn wRows8).getD j 0) :=
  c8_extreme_examples_first_occurrence wRows8 (by decide)
